import Mathlib

/-!
Verification of the multi-recipient hybrid encryption layer of the
cryptpad/pqc-mockup repository.

Shallow embedding conventions, used throughout:

* Byte strings (`Uint8Array` values and JS strings alike) are modelled as
  `List Nat`.  The codecs `textToBytes` / `bytesToText` (TextEncoder /
  TextDecoder, src/scripts/utils/providers/pqcProvider.js lines 23-30) and
  `encodeBase64` / `decodeBase64` (lines 32-40) are content-preserving
  bijections on the values the code feeds them, so they are modelled as the
  identity on `Bytes`; a value's "string" or "binary" flavour is carried
  separately where the source branches on `typeof data`.
* The primitive suite (ML-KEM-1024, ML-DSA-87, AES-GCM from
  src/scripts/utils/schemes/cryptoSchemes.js) is an external black box; it is
  embedded as a `Suite` record of executable operations, and the algebraic
  contracts the spec assumes of it (decapsulation recovers the encapsulated
  secret, verify accepts sign, authenticated decrypt inverts encrypt) are
  explicit hypotheses (`ValidKemPair`, `SigSound`, `SymSound`).  `encapsulate`
  is fallible (the noble library throws on malformed public keys);
  `decapsulate` is total (ML-KEM implicit rejection).  Randomness (fresh
  encapsulations, the ephemeral keypair) is abstracted: each suite operation
  is a deterministic function, which is sound for the claims below, none of
  which depends on two encapsulations differing.
* `JSON.stringify` / `JSON.parse` of the team bundles are modelled by a
  concrete injective length-prefixed serializer (`serializeInner`,
  `serializeOuter`, `parseInner`) with a proved parse-of-serialize law.
* JS exceptions are modelled by `Except String`; a JS `try { } catch` is a
  `match` on the `Except` value; error strings follow the source messages.
* Console logging and the timing/size statistics pushed to `user.stats` are
  elided: they are write-only measurement scaffolding, never read on any
  path a claim mentions.
-/

/-- Byte strings (JS `Uint8Array` values and strings alike). -/
abbrev Bytes := List Nat

/-- A KEM or signature key pair (spec section 3, `KeyPair`). -/
structure KeyPair where
  publicKey : Bytes
  secretKey : Bytes
deriving DecidableEq, Repr

/-- Result of a KEM encapsulation, `{cipherText, sharedSecret}` as returned by
`ml_kem1024.encapsulate`. -/
structure Encapsulation where
  cipherText : Bytes
  sharedSecret : Bytes
deriving DecidableEq, Repr

/-- A primitive suite: the external `{KEM, signature, symmetric-cipher}`
bundle of src/scripts/utils/schemes/cryptoSchemes.js, embedded as a record of
deterministic operations.  `encapsulate` is fallible (noble ML-KEM throws on a
malformed public key); `symDecrypt` is fallible (authenticated decryption
rejects tampered ciphertext, carrying the library error message). -/
structure Suite where
  encapsulate : Bytes → Except String Encapsulation
  decapsulate : Bytes → Bytes → Bytes
  sign : Bytes → Bytes → Bytes
  verify : Bytes → Bytes → Bytes → Bool
  symEncrypt : Bytes → Bytes → Bytes
  symDecrypt : Bytes → Bytes → Except String Bytes
  kemKeygen : KeyPair

/-- The KEM contract of spec section 4.1 for one key pair: encapsulating
against `pk` succeeds and decapsulating its ciphertext with `sk` recovers the
shared secret. -/
def ValidKemPair (s : Suite) (pk sk : Bytes) : Prop :=
  ∃ e, s.encapsulate pk = .ok e ∧ s.decapsulate e.cipherText sk = e.sharedSecret

/-- The signature contract of spec section 4.1 for one key pair: `verify`
accepts what `sign` produced. -/
def SigSound (s : Suite) (pk sk : Bytes) : Prop :=
  ∀ m, s.verify pk m (s.sign sk m) = true

/-- The authenticated-cipher contract of spec section 4.1: decrypting under
the encryption key inverts encryption. -/
def SymSound (s : Suite) : Prop :=
  ∀ d k, s.symDecrypt (s.symEncrypt d k) k = .ok d

/-- TextEncoder (pqcProvider.js line 23): identity at the byte-content level. -/
def textToBytes (b : Bytes) : Bytes := b

/-- TextDecoder (pqcProvider.js line 28): identity at the byte-content level. -/
def bytesToText (b : Bytes) : Bytes := b

/-- `encodeBase64` (pqcProvider.js line 32): content-preserving, identity here. -/
def encodeBase64 (b : Bytes) : Bytes := b

/-- `decodeBase64` (pqcProvider.js line 36): content-preserving, identity here. -/
def decodeBase64 (b : Bytes) : Bytes := b

/-- `PQCProvider.encryptData` (pqcProvider.js lines 82-87): symmetric
encryption under the first 32 bytes of the shared secret, base64-encoded. -/
def encryptData (s : Suite) (data sharedSecret : Bytes) : Bytes :=
  encodeBase64 (s.symEncrypt data (sharedSecret.take 32))

/-- `PQCProvider.decryptData` (pqcProvider.js lines 89-99): base64-decode,
symmetric decrypt under the first 32 bytes of the shared secret; a cipher
failure is rethrown as the cipher name plus the library message. -/
def decryptData (s : Suite) (encryptedData sharedSecret : Bytes) : Except String Bytes :=
  match s.symDecrypt (decodeBase64 encryptedData) (sharedSecret.take 32) with
  | .ok d => .ok (bytesToText d)
  | .error e => .error ("AES-GCM Decryption failed: " ++ e)

/-- Length-prefixed field serializer used to model `JSON.stringify` of the
team bundles: one field is its length followed by its bytes. -/
def serializeBytes (b : Bytes) : Bytes := b.length :: b

/-- Reads one length-prefixed field back, returning it and the remainder. -/
def parseBytes : Bytes → Option (Bytes × Bytes)
  | [] => none
  | n :: rest => if n ≤ rest.length then some (rest.take n, rest.drop n) else none

theorem parseBytes_serializeBytes (b r : Bytes) :
    parseBytes (serializeBytes b ++ r) = some (b, r) := by
  simp [serializeBytes, parseBytes, List.take_left, List.drop_left]

/-- The inner team bundle `{authorPublicKey, encryptedData, ciphertext}`
(pqcProvider.js lines 211-215). -/
structure InnerBundle where
  authorPublicKey : Bytes
  encryptedData : Bytes
  ciphertext : Bytes
deriving DecidableEq, Repr

/-- The outer team bundle `{encryptedData, ciphertext, ephemeralPublicKey}`
(pqcProvider.js lines 224-228). -/
structure OuterBundle where
  encryptedData : Bytes
  ciphertext : Bytes
  ephemeralPublicKey : Bytes
deriving DecidableEq, Repr

/-- Models `JSON.stringify(innerBundle)` (pqcProvider.js line 216). -/
def serializeInner (b : InnerBundle) : Bytes :=
  serializeBytes b.authorPublicKey ++ serializeBytes b.encryptedData ++
    serializeBytes b.ciphertext

/-- Models `JSON.parse(decryptedOuterBundle)` (pqcProvider.js line 271). -/
def parseInner (bs : Bytes) : Option InnerBundle :=
  match parseBytes bs with
  | none => none
  | some (a, r1) =>
    match parseBytes r1 with
    | none => none
    | some (e, r2) =>
      match parseBytes r2 with
      | none => none
      | some (c, r3) => if r3 = [] then some ⟨a, e, c⟩ else none

theorem parseBytes_serializeBytes_nil (b : Bytes) :
    parseBytes (serializeBytes b) = some (b, []) := by
  have h := parseBytes_serializeBytes b []
  simpa using h

theorem parseInner_serializeInner (b : InnerBundle) :
    parseInner (serializeInner b) = some b := by
  simp [serializeInner, parseInner, List.append_assoc, parseBytes_serializeBytes,
    parseBytes_serializeBytes_nil]

/-- Models `JSON.stringify(outerBundle)` (pqcProvider.js lines 231 and 246):
the byte string the team signature covers. -/
def serializeOuter (b : OuterBundle) : Bytes :=
  serializeBytes b.encryptedData ++ serializeBytes b.ciphertext ++
    serializeBytes b.ephemeralPublicKey

/-- The key material closed over by `createMailboxEncryptor` (the caller's own
KEM pair and signature secret key; multiRecipientCrypto.js lines 379-384.  The
`validateKey` field the coordinator also passes is never read by the PQC
mailbox encryptor and is elided). -/
structure MailboxKeys where
  curvePublic : Bytes
  curvePrivate : Bytes
  signingKey : Bytes
deriving DecidableEq, Repr

/-- `EncryptedMailboxMessage` (pqcProvider.js lines 133-139): `dataType` is
`true` for the JS tag value `string`, `false` for `binary`. -/
structure MailboxMessage where
  encryptedData : Bytes
  ciphertext : Bytes
  signature : Bytes
  senderPublicKey : Bytes
  dataType : Bool
deriving DecidableEq, Repr

/-- The `encrypt` closure of `createMailboxEncryptor` (pqcProvider.js lines
122-140): KEM-encapsulate against the recipient key, symmetrically encrypt,
sign the plaintext with the sender signing key.  An encapsulation failure
propagates (the JS function has no try/catch). -/
def mailboxEncrypt (s : Suite) (keys : MailboxKeys) (data : Bytes) (isString : Bool)
    (recipientPublicKey : Bytes) : Except String MailboxMessage :=
  match s.encapsulate recipientPublicKey with
  | .error e => .error e
  | .ok enc =>
    let dataToEncrypt := if isString then data else bytesToText data
    let encryptedData := encryptData s dataToEncrypt enc.sharedSecret
    let signature := s.sign keys.signingKey (if isString then textToBytes data else data)
    .ok ⟨encryptedData, enc.cipherText, signature, keys.curvePublic, isString⟩

/-- The `decrypt` closure of `createMailboxEncryptor` (pqcProvider.js lines
142-166): decapsulate with the own KEM secret key, symmetric-decrypt, then
verify the signature against the decrypted plaintext; every failure in the
try block is rethrown wrapped in a `Decryption failed:` prefix. -/
def mailboxDecrypt (s : Suite) (keys : MailboxKeys) (m : MailboxMessage)
    (senderPublicKey : Bytes) : Except String Bytes :=
  match decryptData s m.encryptedData (s.decapsulate m.ciphertext keys.curvePrivate) with
  | .error e => .error ("Decryption failed: " ++ e)
  | .ok decryptedText =>
    let decryptedData := if m.dataType then decryptedText else textToBytes decryptedText
    let dataForVerification := if m.dataType then textToBytes decryptedText else decryptedData
    if s.verify senderPublicKey dataForVerification m.signature then .ok decryptedData
    else .error "Decryption failed: Invalid signature"

/-- A `TeamKeySet` argument as JS sees it: each of the six fields may be
absent (`none` models a missing/undefined property, the case the truthiness
check of `validateTeamKeys` rejects). -/
structure TeamKeysJs where
  teamCurvePublic : Option Bytes
  teamCurvePrivate : Option Bytes
  teamEdPublic : Option Bytes
  teamEdPrivate : Option Bytes
  myCurvePublic : Option Bytes
  myCurvePrivate : Option Bytes
deriving DecidableEq, Repr

/-- A validated `TeamKeySet` with all six fields present (spec section 3). -/
structure TeamKeySet where
  teamCurvePublic : Bytes
  teamCurvePrivate : Bytes
  teamEdPublic : Bytes
  teamEdPrivate : Bytes
  myCurvePublic : Bytes
  myCurvePrivate : Bytes
deriving DecidableEq, Repr

/-- Injection of a complete key set into the JS-level representation. -/
def TeamKeySet.toJs (k : TeamKeySet) : TeamKeysJs :=
  ⟨some k.teamCurvePublic, some k.teamCurvePrivate, some k.teamEdPublic,
   some k.teamEdPrivate, some k.myCurvePublic, some k.myCurvePrivate⟩

/-- The names of absent fields, in the order of the `requiredKeys` array of
`validateTeamKeys` (pqcProvider.js lines 295-299). -/
def missingTeamKeys (k : TeamKeysJs) : List String :=
  (if k.teamCurvePublic.isNone then ["teamCurvePublic"] else []) ++
  (if k.teamCurvePrivate.isNone then ["teamCurvePrivate"] else []) ++
  (if k.teamEdPublic.isNone then ["teamEdPublic"] else []) ++
  (if k.teamEdPrivate.isNone then ["teamEdPrivate"] else []) ++
  (if k.myCurvePublic.isNone then ["myCurvePublic"] else []) ++
  (if k.myCurvePrivate.isNone then ["myCurvePrivate"] else [])

/-- `PQCProvider.validateTeamKeys` (pqcProvider.js lines 294-307): all six
fields must be present, otherwise it throws naming the missing ones; on
success the validated key set is available to the encryptor closures. -/
def validateTeamKeys (k : TeamKeysJs) : Except String TeamKeySet :=
  match k.teamCurvePublic, k.teamCurvePrivate, k.teamEdPublic, k.teamEdPrivate,
      k.myCurvePublic, k.myCurvePrivate with
  | some a, some b, some c, some d, some e, some f => .ok ⟨a, b, c, d, e, f⟩
  | _, _, _, _, _, _ =>
    .error ("Missing required team keys: " ++ String.intercalate ", " (missingTeamKeys k))

/-- The object returned by `createTeamEncryptor` (pqcProvider.js lines
177-198): the validated keys the closures capture and the two capability
flags, which the source sets to the constants `true` (lines 174-175). -/
structure TeamEncryptor where
  keys : TeamKeySet
  can_encrypt : Bool
  can_decrypt : Bool
deriving DecidableEq, Repr

/-- `PQCProvider.createTeamEncryptor` (pqcProvider.js lines 170-199):
validates the key material (construction fails on missing fields) and returns
the encryptor object with `can_encrypt = can_decrypt = true`. -/
def createTeamEncryptor (k : TeamKeysJs) : Except String TeamEncryptor :=
  match validateTeamKeys k with
  | .error e => .error e
  | .ok keys => .ok ⟨keys, true, true⟩

/-- `TeamEnvelope` (pqcProvider.js lines 234-237). -/
structure TeamEnvelope where
  outerBundle : OuterBundle
  signature : Bytes
deriving DecidableEq, Repr

/-- The `{content, author}` record returned by `teamDecrypt` (pqcProvider.js
lines 284-287). -/
structure TeamResult where
  content : Bytes
  author : Bytes
deriving DecidableEq, Repr

/-- `PQCProvider.teamEncrypt` (pqcProvider.js lines 203-238): inner
encapsulation against the team KEM public key and encryption of the
plaintext; inner bundle carrying the author's own KEM public key; a second,
outer encapsulation against the same team KEM public key encrypting the
serialized inner bundle; an ephemeral KEM public key attached to the outer
bundle; and a signature over the serialized outer bundle under the team
signature secret key. -/
def teamEncrypt (s : Suite) (keys : TeamKeySet) (data : Bytes) :
    Except String TeamEnvelope :=
  match s.encapsulate keys.teamCurvePublic with
  | .error e => .error e
  | .ok innerEncapsulation =>
    let innerEncrypted := encryptData s data innerEncapsulation.sharedSecret
    let innerBundle : InnerBundle :=
      ⟨keys.myCurvePublic, innerEncrypted, encodeBase64 innerEncapsulation.cipherText⟩
    let innerBundleBytes := textToBytes (serializeInner innerBundle)
    let ephemeralKeypair := s.kemKeygen
    match s.encapsulate keys.teamCurvePublic with
    | .error e => .error e
    | .ok outerEncapsulation =>
      let outerEncrypted := encryptData s innerBundleBytes outerEncapsulation.sharedSecret
      let outerBundle : OuterBundle :=
        ⟨outerEncrypted, encodeBase64 outerEncapsulation.cipherText,
         ephemeralKeypair.publicKey⟩
      let signature := s.sign keys.teamEdPrivate (textToBytes (serializeOuter outerBundle))
      .ok ⟨outerBundle, encodeBase64 signature⟩

/-- `PQCProvider.teamDecrypt` (pqcProvider.js lines 240-292): unless skipped,
verify the signature over the serialized outer bundle against the team
signature public key; decapsulate the outer ciphertext with the team KEM
secret key and decrypt the serialized inner bundle; parse it; decapsulate the
inner ciphertext with the same team KEM secret key and decrypt the plaintext;
return it with the inner bundle's author.  Every failure in the try block is
rethrown wrapped in a `Team decryption failed:` prefix. -/
def teamDecrypt (s : Suite) (keys : TeamKeySet) (msg : TeamEnvelope)
    (skipValidation : Bool) : Except String TeamResult :=
  Except.mapError (fun e => "Team decryption failed: " ++ e) (
    if !skipValidation &&
        !(s.verify keys.teamEdPublic (textToBytes (serializeOuter msg.outerBundle))
          (decodeBase64 msg.signature)) then
      .error "Invalid team signature"
    else
      match decryptData s msg.outerBundle.encryptedData
          (s.decapsulate (decodeBase64 msg.outerBundle.ciphertext) keys.teamCurvePrivate) with
      | .error e => .error e
      | .ok decryptedOuterBundle =>
        match parseInner decryptedOuterBundle with
        | none => .error "Unexpected token in JSON"
        | some innerBundle =>
          match decryptData s innerBundle.encryptedData
              (s.decapsulate (decodeBase64 innerBundle.ciphertext) keys.teamCurvePrivate) with
          | .error e => .error e
          | .ok decryptedData => .ok ⟨decryptedData, innerBundle.authorPublicKey⟩)

/-- The `encrypt` closure of the team encryptor (pqcProvider.js lines
178-185): delegates to `teamEncrypt`, rewrapping any failure. -/
def teamEncryptorEncrypt (s : Suite) (e : TeamEncryptor) (data : Bytes) :
    Except String TeamEnvelope :=
  Except.mapError (fun m => "Team encryption failed: " ++ m) (teamEncrypt s e.keys data)

/-- The `decrypt` closure of the team encryptor (pqcProvider.js lines
187-194): delegates to `teamDecrypt`, rewrapping any failure. -/
def teamEncryptorDecrypt (s : Suite) (e : TeamEncryptor) (msg : TeamEnvelope)
    (skipValidation : Bool) : Except String TeamResult :=
  Except.mapError (fun m => "Team decryption failed: " ++ m)
    (teamDecrypt s e.keys msg skipValidation)

/-- A Participant (src/scripts/models/User.js): one KEM key pair and one
signature key pair.  Scheme binding, stats and document bookkeeping are
elided. -/
structure Participant where
  kemKeys : KeyPair
  signKeys : KeyPair
deriving DecidableEq, Repr

/-- The state of a `MultiRecipientCrypto` coordinator
(multiRecipientCrypto.js lines 336-346) relevant to the decrypt path: the
bound user, the provider's primitive suite, the currently adopted team keys,
and the outcome that `this.cryptoProvider.init()` would deliver
(`.ok ()` for the PQC provider, whose `init` always succeeds; an error models
a NaCl/ElGamal provider whose `loadCryptoModule` rejects).  The cached
encryptor objects are elided: they are recomputed deterministically here. -/
structure Coordinator where
  user : Participant
  suite : Suite
  teamKeys : Option TeamKeysJs
  initResult : Except String Unit

/-- The mailbox key record the coordinator builds from its user
(multiRecipientCrypto.js lines 379-384). -/
def userMailboxKeys (u : Participant) : MailboxKeys :=
  ⟨u.kemKeys.publicKey, u.kemKeys.secretKey, u.signKeys.secretKey⟩

/-- `MultiRecipientCrypto.generateTeamKeys` (multiRecipientCrypto.js lines
415-427): the six fields are copied verbatim from the user's own KEM and
signature key pairs; no fresh key material is produced. -/
def generateTeamKeys (u : Participant) : TeamKeySet :=
  ⟨u.kemKeys.publicKey, u.kemKeys.secretKey,
   u.signKeys.publicKey, u.signKeys.secretKey,
   u.kemKeys.publicKey, u.kemKeys.secretKey⟩

/-- `block.encryptorType` dispatch values (cryptoProvider.js
`ENCRYPTOR_TYPES`); the source tests `=== 'team'` and treats every other
value as mailbox, so the embedding needs only the two-valued tag. -/
inductive EncType where
  | mailbox
  | team
deriving DecidableEq, Repr

/-- A `SharedBlock` as read by the decrypt path (multiRecipientCrypto.js
lines 617-647): the fields `userId`, `blockData`, `timestamp` and `scheme`
are stamped on creation but never read when decrypting and are elided.
`Option` fields model properties a malformed block may lack. -/
structure Block where
  encryptorType : EncType
  encryptedVersions : Option (List (Bytes × MailboxMessage))
  teamEncrypted : Option TeamEnvelope
  teamKeys : Option TeamKeysJs
  signPublicKey : Option Bytes
deriving DecidableEq, Repr

/-- The result object of `decryptSharedBlock` (multiRecipientCrypto.js lines
765-774); the derived timing fields are elided. -/
structure DecResult where
  valid : Bool
  signatureValid : Bool
  decryptionValid : Bool
  decryptedData : Option Bytes
  error : Option String
deriving DecidableEq, Repr

/-- JS object lookup `block.encryptedVersions[this.user.kemKeys.publicKey]`
(multiRecipientCrypto.js line 711): keys compare by their byte content. -/
def lookupVersion (m : List (Bytes × MailboxMessage)) (k : Bytes) :
    Option MailboxMessage :=
  (m.find? (fun p => p.1 = k)).map Prod.snd

/-- JS object assignment `encryptedVersions[recipientKey] = message`
(multiRecipientCrypto.js line 536): overwrites an existing entry for the same
key, otherwise appends. -/
def upsertVersion (m : List (Bytes × MailboxMessage)) (k : Bytes)
    (v : MailboxMessage) : List (Bytes × MailboxMessage) :=
  if m.any (fun p => p.1 = k) then
    m.map (fun p => if p.1 = k then (p.1, v) else p)
  else m ++ [(k, v)]

/-- `MultiRecipientCrypto.encryptForMailbox` (multiRecipientCrypto.js lines
529-558): encrypts the (already string-normalized) data once per recipient;
a per-recipient failure is caught, logged and the recipient omitted; the
function itself always returns the accumulated map.  Size tracking is
elided. -/
def encryptForMailbox (s : Suite) (keys : MailboxKeys) (data : Bytes)
    (recipientPublicKeys : List Bytes) : List (Bytes × MailboxMessage) :=
  recipientPublicKeys.foldl (fun acc recipientKey =>
    match mailboxEncrypt s keys data true recipientKey with
    | .ok message => upsertVersion acc recipientKey message
    | .error _ => acc) []

/-- `MultiRecipientCrypto.encryptForTeam` (multiRecipientCrypto.js lines
508-527): generates team keys when none are set, creates the team encryptor
(validation may fail), refuses when `can_encrypt` is `false`, then encrypts. -/
def encryptForTeam (st : Coordinator) (data : Bytes) : Except String TeamEnvelope :=
  let tk := st.teamKeys.getD (generateTeamKeys st.user).toJs
  match createTeamEncryptor tk with
  | .error e => .error e
  | .ok enc =>
    if enc.can_encrypt = false then
      .error "Team encryptor does not have encryption capability with current keys"
    else teamEncryptorEncrypt st.suite enc data

/-- `MultiRecipientCrypto.createSharedBlock` (multiRecipientCrypto.js lines
605-648) restricted to the fields the decrypt path reads: data is normalized
to a string upstream, team keys are generated when absent and embedded in a
team block, and the sender's signature public key is stamped on the block. -/
def createSharedBlock (st : Coordinator) (data : Bytes)
    (recipientPublicKeys : List Bytes) (encryptorType : EncType) :
    Except String Block :=
  match st.initResult with
  | .error e => .error e
  | .ok _ =>
    match encryptorType with
    | .team =>
      let tk := st.teamKeys.getD (generateTeamKeys st.user).toJs
      match encryptForTeam st data with
      | .error e => .error e
      | .ok teamEncrypted =>
        .ok ⟨.team, none, some teamEncrypted, some tk, some st.user.signKeys.publicKey⟩
    | .mailbox =>
      .ok ⟨.mailbox,
        some (encryptForMailbox st.suite (userMailboxKeys st.user) data recipientPublicKeys),
        none, none, some st.user.signKeys.publicKey⟩

/-- Models `JSON.stringify(result)` for a `{content, author}` record, the
value `decryptTeamBlock` returns when the decrypted content is empty but an
author is present (multiRecipientCrypto.js line 694). -/
def serializeTeamResult (r : TeamResult) : Bytes :=
  serializeBytes r.content ++ serializeBytes r.author

/-- `MultiRecipientCrypto.decryptTeamBlock` (multiRecipientCrypto.js lines
652-704): requires `teamEncrypted`; adopts the block's team keys, else the
coordinator's, else fails; creates the team encryptor (validation may fail);
refuses when `can_decrypt` is `false`; decrypts with signature validation on;
an empty decrypted content with a non-empty author degrades to the
JSON-serialized result, an empty author is an error. -/
def decryptTeamBlock (st : Coordinator) (b : Block) : Except String Bytes :=
  match b.teamEncrypted with
  | none => .error "Invalid team block structure: missing teamEncrypted property"
  | some env =>
    match (match b.teamKeys with
           | some k => Except.ok k
           | none =>
             match st.teamKeys with
             | some k => Except.ok k
             | none => Except.error "No team keys available for decryption") with
    | .error e => .error e
    | .ok kjs =>
      match createTeamEncryptor kjs with
      | .error e => .error e
      | .ok enc =>
        if enc.can_decrypt = false then
          .error "Team encryptor does not have decryption capability with current keys"
        else
          match teamEncryptorDecrypt st.suite enc env false with
          | .error e => .error e
          | .ok result =>
            if result.content.isEmpty then
              if !result.author.isEmpty then .ok (serializeTeamResult result)
              else .error "Team decryption succeeded but returned invalid content structure"
            else .ok result.content

/-- `MultiRecipientCrypto.decryptMailboxBlock` (multiRecipientCrypto.js lines
706-725): requires `encryptedVersions`, looks up the user's own entry,
requires the block's signature public key, then delegates to the mailbox
encryptor's decrypt. -/
def decryptMailboxBlock (st : Coordinator) (b : Block) : Except String Bytes :=
  match b.encryptedVersions with
  | none => .error "Invalid mailbox block structure: missing encryptedVersions property"
  | some versions =>
    match lookupVersion versions st.user.kemKeys.publicKey with
    | none => .error "No encrypted version found for this user"
    | some myVersion =>
      match b.signPublicKey with
      | none => .error "Missing signature validation key in block"
      | some signPublicKey =>
        mailboxDecrypt st.suite (userMailboxKeys st.user) myVersion signPublicKey

/-- The try block of `decryptSharedBlock` (multiRecipientCrypto.js lines
733-757): undefined block check, then dispatch on the encryptor type. -/
def decryptSharedBlockTry (st : Coordinator) (b? : Option Block) :
    Except String Bytes :=
  match b? with
  | none => .error "Block is undefined"
  | some b =>
    if b.encryptorType = EncType.team then decryptTeamBlock st b
    else decryptMailboxBlock st b

/-- The result object built at the end of `decryptSharedBlock`
(multiRecipientCrypto.js lines 765-774): on success the three flags are the
JS truthiness `!!decryptedData && !error`, which is `false` for an empty
decrypted string; a caught error yields `valid = false` and the message.
The decrypted value is a JS string on every block the Coordinator itself
builds (the encrypt paths normalize data to a string, so the stored
`dataType` is the string tag), and the truthiness of a string is its
nonemptiness, modelled by `isEmpty` on its byte content. -/
def mkDecResult : Except String Bytes → DecResult
  | .ok d => ⟨!d.isEmpty, !d.isEmpty, !d.isEmpty, some d, none⟩
  | .error e => ⟨false, false, false, none, some e⟩

/-- `MultiRecipientCrypto.decryptSharedBlock` (multiRecipientCrypto.js lines
727-775).  `await this.ensureInitialized()` runs before the try block, so a
provider initialization failure propagates to the caller (an `Except.error`
here); every failure inside the try block is caught and folded into the
returned result object. -/
def decryptSharedBlock (st : Coordinator) (b? : Option Block) :
    Except String DecResult :=
  match st.initResult with
  | .error e => .error e
  | .ok _ => .ok (mkDecResult (decryptSharedBlockTry st b?))

/-- Events of the memoized-initializer protocol shared by
`MultiRecipientCrypto.init` (multiRecipientCrypto.js lines 350-367) and
`NaclCryptoProvider.init` (naclProvider.js lines 11-35): `enter c` is caller
`c` invoking `init()` (its synchronous prefix runs to completion on the JS
event loop, so the flag checks and the promise assignment of one call are a
single atomic step); `complete` is the underlying provider initialization
resolving, which flips the flag and wakes every caller awaiting the memoized
promise.  The underlying initialization is the success case (the
PQCProvider's `init` always returns `true`). -/
inductive InitEvent where
  | enter (c : Nat)
  | complete
deriving DecidableEq, Repr

/-- State of the memoized initializer: `ready` is `this.initialized`,
`hasPromise` is `this.initPromise !== null`, `provInits` counts how many
times the underlying provider initialization was started, `waiters` are the
callers awaiting the in-flight promise and `done` the callers that have
observed the successful result. -/
structure InitMachine where
  ready : Bool
  hasPromise : Bool
  provInits : Nat
  waiters : List Nat
  done : List Nat
deriving DecidableEq, Repr

/-- One atomic step of the initializer protocol: an entering caller returns
immediately when already initialized, subscribes to an in-flight promise when
one exists, and otherwise installs the promise and starts the underlying
initialization (exactly the three branches of lines 351-366); a completion
marks initialized and resolves every waiter. -/
def initStep (s : InitMachine) : InitEvent → InitMachine
  | .enter c =>
    if s.ready then { s with done := c :: s.done }
    else if s.hasPromise then { s with waiters := c :: s.waiters }
    else { s with hasPromise := true, provInits := s.provInits + 1,
                  waiters := c :: s.waiters }
  | .complete =>
    if s.hasPromise && !s.ready then
      { s with ready := true, done := s.waiters ++ s.done, waiters := [] }
    else s

/-- The freshly constructed coordinator/provider. -/
def initStart : InitMachine := ⟨false, false, 0, [], []⟩

/-- Running a whole interleaving of callers and the completion. -/
def initRun (tr : List InitEvent) : InitMachine := tr.foldl initStep initStart

/-- Invariant of the initializer: the underlying initialization has run
exactly once iff the memoized promise exists, and the initialized flag is
only ever set behind an existing promise. -/
def InitInv (s : InitMachine) : Prop :=
  (s.provInits = if s.hasPromise then 1 else 0) ∧
    (s.ready = true → s.hasPromise = true)

theorem initStep_inv (s : InitMachine) (e : InitEvent) (h : InitInv s) :
    InitInv (initStep s e) := by
  obtain ⟨h1, h2⟩ := h
  cases e <;> simp only [initStep] <;> split_ifs <;> simp_all [InitInv]

theorem initRun_inv (tr : List InitEvent) (s : InitMachine) (h : InitInv s) :
    InitInv (tr.foldl initStep s) := by
  induction tr generalizing s with
  | nil => exact h
  | cons e tr ih => exact ih _ (initStep_inv s e h)

theorem initStep_hasPromise_mono (s : InitMachine) (e : InitEvent)
    (h : s.hasPromise = true) : (initStep s e).hasPromise = true := by
  cases e <;> simp only [initStep] <;> split_ifs <;> simp_all

theorem initRun_hasPromise_mono (tr : List InitEvent) (s : InitMachine)
    (h : s.hasPromise = true) : (tr.foldl initStep s).hasPromise = true := by
  induction tr generalizing s with
  | nil => exact h
  | cons e tr ih => exact ih _ (initStep_hasPromise_mono s e h)

theorem initStep_enter_hasPromise (s : InitMachine) (c : Nat) (h : InitInv s) :
    (initStep s (.enter c)).hasPromise = true := by
  by_cases hr : s.ready
  · simp [initStep, hr, h.2 hr]
  · by_cases hp : s.hasPromise <;> simp [initStep, hr, hp]

theorem foldl_enter_hasPromise (tr : List InitEvent) (s : InitMachine)
    (hinv : InitInv s) (h : ∃ c, InitEvent.enter c ∈ tr) :
    (tr.foldl initStep s).hasPromise = true := by
  induction tr generalizing s with
  | nil => obtain ⟨c, hc⟩ := h; cases hc
  | cons e tr ih =>
    obtain ⟨c, hc⟩ := h
    rcases List.mem_cons.mp hc with hc | hc
    · subst hc
      exact initRun_hasPromise_mono tr _ (initStep_enter_hasPromise s c hinv)
    · exact ih _ (initStep_inv s e hinv) ⟨c, hc⟩

theorem initStep_member (s : InitMachine) (e : InitEvent) (c : Nat)
    (h : c ∈ s.waiters ∨ c ∈ s.done) :
    c ∈ (initStep s e).waiters ∨ c ∈ (initStep s e).done := by
  cases e with
  | enter c' =>
    by_cases hr : s.ready
    · rcases h with h | h <;> simp [initStep, hr, h]
    · by_cases hp : s.hasPromise <;>
        rcases h with h | h <;> simp [initStep, hr, hp, h]
  | complete =>
    by_cases hc : s.hasPromise && !s.ready
    · rcases h with h | h <;> simp [initStep, hc, h]
    · rcases h with h | h <;> simp [initStep, hc, h]

theorem initStep_enter_member (s : InitMachine) (c : Nat) :
    c ∈ (initStep s (.enter c)).waiters ∨ c ∈ (initStep s (.enter c)).done := by
  by_cases hr : s.ready
  · simp [initStep, hr]
  · by_cases hp : s.hasPromise <;> simp [initStep, hr, hp]

theorem foldl_member (tr : List InitEvent) (s : InitMachine) (c : Nat)
    (h : InitEvent.enter c ∈ tr ∨ c ∈ s.waiters ∨ c ∈ s.done) :
    c ∈ (tr.foldl initStep s).waiters ∨ c ∈ (tr.foldl initStep s).done := by
  induction tr generalizing s with
  | nil => simpa using h.resolve_left (by simp)
  | cons e tr ih =>
    rcases h with h | h
    · rcases List.mem_cons.mp h with h | h
      · subst h
        exact ih _ (Or.inr (initStep_enter_member s c))
      · exact ih _ (Or.inl h)
    · exact ih _ (Or.inr (initStep_member s e c h))

/-- A small concrete primitive suite satisfying the algebraic contracts of
spec section 4.1, used to evaluate the theorems on concrete inputs: key pairs
are `pk = sk`, a public key is well formed iff it has length 4 (a malformed
key makes `encapsulate` fail, as the noble library does), signing prepends
the secret key, and the authenticated cipher prepends the key and rejects a
ciphertext whose key prefix does not match. -/
def toySuite : Suite where
  encapsulate := fun pk =>
    if pk.length = 4 then .ok ⟨pk, pk.map (· + 1)⟩
    else .error "invalid encapsulation key"
  decapsulate := fun ct sk => if ct = sk then sk.map (· + 1) else sk.map (· + 9)
  sign := fun sk m => sk ++ m
  verify := fun pk m sig => decide (sig = pk ++ m)
  symEncrypt := fun d k => k ++ d
  symDecrypt := fun c k =>
    if c.take k.length = k then .ok (c.drop k.length)
    else .error "authentication failed"
  kemKeygen := ⟨[7, 7, 7, 7], [7, 7, 7, 7]⟩

theorem toySuite_symSound : SymSound toySuite := by
  intro d k
  simp [toySuite, SymSound, List.take_left, List.drop_left]

theorem toySuite_sigSound (k : Bytes) : SigSound toySuite k k := by
  intro m
  simp [toySuite, SigSound]

theorem toySuite_validKem (pk : Bytes) (h : pk.length = 4) :
    ValidKemPair toySuite pk pk :=
  ⟨⟨pk, pk.map (· + 1)⟩, by simp [toySuite, h], by simp [toySuite]⟩

/-- A concrete sender for the witness instances. -/
def alice : Participant := ⟨⟨[1, 1, 1, 1], [1, 1, 1, 1]⟩, ⟨[5, 5], [5, 5]⟩⟩

/-- A concrete recipient for the witness instances. -/
def bob : Participant := ⟨⟨[2, 2, 2, 2], [2, 2, 2, 2]⟩, ⟨[6, 6], [6, 6]⟩⟩

theorem decryptData_encryptData (s : Suite) (hsym : SymSound s) (d ss : Bytes) :
    decryptData s (encryptData s d ss) ss = .ok d := by
  simp [decryptData, encryptData, encodeBase64, decodeBase64, bytesToText,
    hsym d (ss.take 32)]

/-- Mailbox round trip at the provider level: under the suite contracts,
encrypting to the recipient's KEM public key and decrypting with the
recipient's KEM secret key and the sender's signature public key recovers
the plaintext. -/
theorem mailbox_roundtrip (s : Suite) (senderKeys recipKeys : MailboxKeys)
    (senderSigPub data : Bytes) (isString : Bool)
    (hkem : ValidKemPair s recipKeys.curvePublic recipKeys.curvePrivate)
    (hsym : SymSound s)
    (hsig : SigSound s senderSigPub senderKeys.signingKey) :
    ∃ m, mailboxEncrypt s senderKeys data isString recipKeys.curvePublic = .ok m ∧
      mailboxDecrypt s recipKeys m senderSigPub = .ok data := by
  obtain ⟨e, henc, hdec⟩ := hkem
  have hm : mailboxEncrypt s senderKeys data isString recipKeys.curvePublic =
      .ok ⟨encryptData s data e.sharedSecret, e.cipherText,
        s.sign senderKeys.signingKey data, senderKeys.curvePublic, isString⟩ := by
    simp only [mailboxEncrypt, henc, bytesToText, textToBytes, ite_self]
  refine ⟨_, hm, ?_⟩
  simp only [mailboxDecrypt, hdec, bytesToText, textToBytes, ite_self,
    decryptData_encryptData s hsym, hsig data]
  simp

/-- Team round trip at the provider level: under the suite contracts for the
team key pairs, `teamDecrypt` of `teamEncrypt` (with signature validation on)
returns the plaintext with the encryptor's own KEM public key as author. -/
theorem team_roundtrip (s : Suite) (K : TeamKeySet) (P : Bytes)
    (hkem : ValidKemPair s K.teamCurvePublic K.teamCurvePrivate)
    (hsig : SigSound s K.teamEdPublic K.teamEdPrivate)
    (hsym : SymSound s) :
    ∃ env, teamEncrypt s K P = .ok env ∧
      teamDecrypt s K env false = .ok ⟨P, K.myCurvePublic⟩ := by
  obtain ⟨e, henc, hdec⟩ := hkem
  have henv : teamEncrypt s K P =
      .ok ⟨⟨encryptData s
            (serializeInner ⟨K.myCurvePublic, encryptData s P e.sharedSecret, e.cipherText⟩)
            e.sharedSecret,
          e.cipherText, s.kemKeygen.publicKey⟩,
        s.sign K.teamEdPrivate
          (serializeOuter ⟨encryptData s
              (serializeInner ⟨K.myCurvePublic, encryptData s P e.sharedSecret, e.cipherText⟩)
              e.sharedSecret,
            e.cipherText, s.kemKeygen.publicKey⟩)⟩ := by
    simp only [teamEncrypt, henc, encodeBase64, textToBytes]
  refine ⟨_, henv, ?_⟩
  simp only [teamDecrypt, encodeBase64, decodeBase64, textToBytes, hsig,
    Bool.not_true, Bool.and_false, Bool.false_and, Bool.not_false, hdec,
    decryptData_encryptData s hsym, parseInner_serializeInner]
  have hv := hsig (serializeOuter ⟨encryptData s
      (serializeInner ⟨K.myCurvePublic, encryptData s P e.sharedSecret, e.cipherText⟩)
      e.sharedSecret,
    e.cipherText, s.kemKeygen.publicKey⟩)
  simp [hv, Except.mapError]

/-- JS view of a promise outcome: did the call succeed. -/
def exceptIsOk {ε α : Type} : Except ε α → Bool
  | .ok _ => true
  | .error _ => false

theorem upsertVersion_fresh (m : List (Bytes × MailboxMessage)) (k : Bytes)
    (v : MailboxMessage) (h : ∀ p ∈ m, p.1 ≠ k) :
    upsertVersion m k v = m ++ [(k, v)] := by
  have hany : m.any (fun p => p.1 = k) = false := by
    rw [List.any_eq_false]
    intro p hp
    simpa using h p hp
  simp [upsertVersion, hany]

theorem encryptForMailbox_aux (s : Suite) (keys : MailboxKeys) (data : Bytes)
    (recips : List Bytes) (acc : List (Bytes × MailboxMessage))
    (hnd : recips.Nodup) (hfr : ∀ r ∈ recips, ∀ p ∈ acc, p.1 ≠ r) :
    (recips.foldl (fun acc recipientKey =>
      match mailboxEncrypt s keys data true recipientKey with
      | .ok message => upsertVersion acc recipientKey message
      | .error _ => acc) acc).map Prod.fst =
    acc.map Prod.fst ++
      recips.filter (fun r => exceptIsOk (mailboxEncrypt s keys data true r)) := by
  induction recips generalizing acc with
  | nil => simp
  | cons r rs ih =>
    have hndtl : rs.Nodup := (List.nodup_cons.mp hnd).2
    have hhd : r ∉ rs := (List.nodup_cons.mp hnd).1
    cases hm : mailboxEncrypt s keys data true r with
    | ok message =>
      have hfresh : ∀ p ∈ acc, p.1 ≠ r := hfr r (List.mem_cons_self r rs)
      have hstep : upsertVersion acc r message = acc ++ [(r, message)] :=
        upsertVersion_fresh acc r message hfresh
      have hfr2 : ∀ r2 ∈ rs, ∀ p ∈ acc ++ [(r, message)], p.1 ≠ r2 := by
        intro r2 hr2 p hp
        rcases List.mem_append.mp hp with hp | hp
        · exact hfr r2 (List.mem_cons_of_mem r hr2) p hp
        · simp at hp
          subst hp
          intro hcon
          simp only at hcon
          exact hhd (hcon ▸ hr2)
      have := ih (acc ++ [(r, message)]) hndtl hfr2
      simp only [List.foldl_cons, hm, hstep, this, List.map_append, List.filter_cons,
        exceptIsOk, List.map_cons, List.map_nil, List.append_assoc, List.cons_append,
        List.nil_append]
      simp
    | error e =>
      have := ih acc hndtl (fun r2 hr2 => hfr r2 (List.mem_cons_of_mem r hr2))
      simp only [List.foldl_cons, hm, this, List.filter_cons, exceptIsOk,
        Bool.false_eq_true, if_false]

theorem encryptForMailbox_keys (s : Suite) (keys : MailboxKeys) (data : Bytes)
    (recips : List Bytes) (hnd : recips.Nodup) :
    (encryptForMailbox s keys data recips).map Prod.fst =
      recips.filter (fun r => exceptIsOk (mailboxEncrypt s keys data true r)) := by
  have := encryptForMailbox_aux s keys data recips [] hnd (by simp)
  simpa [encryptForMailbox] using this

theorem length_filter_split {α : Type} (l : List α) (p : α → Bool) :
    (l.filter p).length + (l.filter (fun a => !(p a))).length = l.length := by
  induction l with
  | nil => simp
  | cons a l ih =>
    cases hpa : p a <;> simp [List.filter_cons, hpa] <;> omega

/-- Alice's coordinator over the toy suite (initialization succeeds, as with
the PQC provider). -/
def aliceCoord : Coordinator := ⟨alice, toySuite, none, .ok ()⟩

/-- Bob's coordinator over the toy suite. -/
def bobCoord : Coordinator := ⟨bob, toySuite, none, .ok ()⟩

/-- Fallback mailbox message for total extraction of concrete values. -/
def mdummy : MailboxMessage := ⟨[], [], [], [], true⟩

/-- Fallback block for total extraction of concrete values. -/
def bdummy : Block := ⟨.mailbox, none, none, none, none⟩

/-- Fallback envelope for total extraction of concrete values. -/
def edummy : TeamEnvelope := ⟨⟨[], [], []⟩, []⟩

/-- The concrete mailbox message Alice produces for Bob on plaintext `[0]`. -/
def c1msg : MailboxMessage :=
  (mailboxEncrypt toySuite (userMailboxKeys alice) [0] true
    bob.kemKeys.publicKey).toOption.getD mdummy

/-- The concrete mailbox message Alice produces for Bob on the empty
plaintext. -/
def c1emptyMsg : MailboxMessage :=
  (mailboxEncrypt toySuite (userMailboxKeys alice) [] true
    bob.kemKeys.publicKey).toOption.getD mdummy

/-- The concrete shared block Alice's coordinator produces for Bob on the
empty plaintext. -/
def c1emptyBlock : Block :=
  (createSharedBlock aliceCoord [] [bob.kemKeys.publicKey] .mailbox).toOption.getD bdummy

/-- The message of `c1msg` with its signature replaced, so that
verification fails while symmetric decryption still succeeds. -/
def c3badMsg : MailboxMessage := { c1msg with signature := [9] }

/-- The team key set Alice's coordinator generates: her own key pairs. -/
def toyTeam : TeamKeySet := generateTeamKeys alice

/-- The concrete team envelope for plaintext `[4, 2]` under `toyTeam`. -/
def c2env : TeamEnvelope := (teamEncrypt toySuite toyTeam [4, 2]).toOption.getD edummy

/-- Encrypt-only team key material: the team KEM public key, the team
signature secret key and the own KEM public key are present; the decryption
keys (`teamCurvePrivate`, `teamEdPublic`) and `myCurvePrivate` are absent. -/
def c6keys : TeamKeysJs :=
  ⟨some [1, 1, 1, 1], none, none, some [5, 5], some [1, 1, 1, 1], none⟩

/-- The encryptor built from the complete team key set. -/
def c6goodEnc : TeamEncryptor :=
  (createTeamEncryptor toyTeam.toJs).toOption.getD ⟨toyTeam, false, false⟩

/-- A concrete interleaving: two concurrent callers, the completion of the
underlying initialization, then a third caller arriving afterwards. -/
def c8trace : List InitEvent := [.enter 0, .enter 1, .complete, .enter 2]

/-- Five recipients of which exactly the last has a malformed (wrong-length)
public key. -/
def c5recips : List Bytes :=
  [[0, 0, 0, 1], [0, 0, 0, 2], [0, 0, 0, 3], [0, 0, 0, 4], [9]]

/-- C1 (amended): for every plaintext P, valid recipient KEM keypair and
valid sender signature keypair, the mailbox encryptor's decrypt on the
message produced by encrypt, using the recipient's own KEM secret key and
the sender's signature public key, returns P unchanged; and whenever P is
nonempty the Coordinator's decryptSharedBlock reports signatureValid = true.
The nonemptiness restriction is forced by the counterexample: the
Coordinator's truthiness test marks an empty decrypted string invalid. -/
theorem C1_mailbox_roundtrip (s : Suite) (senderKeys : MailboxKeys)
    (recip : Participant) (senderSigPub P : Bytes) (isString : Bool)
    (m : MailboxMessage)
    (hm : mailboxEncrypt s senderKeys P isString recip.kemKeys.publicKey = .ok m)
    (hkem : ValidKemPair s recip.kemKeys.publicKey recip.kemKeys.secretKey)
    (hsym : SymSound s)
    (hsig : SigSound s senderSigPub senderKeys.signingKey) :
    mailboxDecrypt s (userMailboxKeys recip) m senderSigPub = .ok P ∧
    (P ≠ [] → ∀ tk, decryptSharedBlock ⟨recip, s, tk, .ok ()⟩
      (some ⟨.mailbox, some [(recip.kemKeys.publicKey, m)], none, none, some senderSigPub⟩) =
      .ok ⟨true, true, true, some P, none⟩) := by
  obtain ⟨m2, hm2, hd⟩ := mailbox_roundtrip s senderKeys (userMailboxKeys recip)
    senderSigPub P isString hkem hsym hsig
  rw [show (userMailboxKeys recip).curvePublic = recip.kemKeys.publicKey from rfl] at hm2
  rw [hm] at hm2
  injection hm2 with hmm
  subst hmm
  refine ⟨hd, fun hP tk => ?_⟩
  have hPe : P.isEmpty = false := by
    cases P with
    | nil => exact absurd rfl hP
    | cons a l => rfl
  simp [decryptSharedBlock, decryptSharedBlockTry, decryptMailboxBlock,
    lookupVersion, mkDecResult, hd, hPe]

/-- C1 witness: the amended round trip evaluated on the toy suite for
plaintext `[0]` from Alice to Bob. -/
theorem C1_mailbox_roundtrip_witness :
    mailboxDecrypt toySuite (userMailboxKeys bob) c1msg alice.signKeys.publicKey = .ok [0] ∧
    decryptSharedBlock ⟨bob, toySuite, none, .ok ()⟩
      (some ⟨.mailbox, some [(bob.kemKeys.publicKey, c1msg)], none, none,
        some alice.signKeys.publicKey⟩) =
      .ok ⟨true, true, true, some [0], none⟩ := by
  have h := C1_mailbox_roundtrip toySuite (userMailboxKeys alice) bob
    alice.signKeys.publicKey [0] true c1msg rfl
    (toySuite_validKem bob.kemKeys.publicKey rfl) toySuite_symSound
    (toySuite_sigSound alice.signKeys.publicKey)
  exact ⟨h.1, h.2 (by decide) none⟩

/-- C1 counterexample: on the empty plaintext the mailbox decrypt does
return the plaintext unchanged, but the Coordinator reports
signatureValid = false (the block is the one Alice's coordinator builds),
refuting the claim's Coordinator clause as stated for every plaintext. -/
theorem C1_empty_plaintext_counterexample :
    mailboxEncrypt toySuite (userMailboxKeys alice) [] true bob.kemKeys.publicKey =
      .ok c1emptyMsg ∧
    mailboxDecrypt toySuite (userMailboxKeys bob) c1emptyMsg alice.signKeys.publicKey =
      .ok [] ∧
    createSharedBlock aliceCoord [] [bob.kemKeys.publicKey] .mailbox = .ok c1emptyBlock ∧
    decryptSharedBlock bobCoord (some c1emptyBlock) =
      .ok ⟨false, false, false, some [], none⟩ :=
  ⟨rfl, rfl, rfl, rfl⟩

/-- C2: for every plaintext P and every valid TeamKeySet K, decrypting the
envelope produced by teamEncrypt with the same key set (signature validation
on) returns the plaintext unchanged together with the encryptor's own KEM
public key as author. -/
theorem C2_team_roundtrip (s : Suite) (K : TeamKeySet) (P : Bytes)
    (env : TeamEnvelope) (henv : teamEncrypt s K P = .ok env)
    (hkem : ValidKemPair s K.teamCurvePublic K.teamCurvePrivate)
    (hsig : SigSound s K.teamEdPublic K.teamEdPrivate)
    (hsym : SymSound s) :
    teamDecrypt s K env false = .ok ⟨P, K.myCurvePublic⟩ := by
  obtain ⟨env2, henv2, hd⟩ := team_roundtrip s K P hkem hsig hsym
  rw [henv] at henv2
  injection henv2 with he
  subst he
  exact hd

/-- C2 witness: the team round trip evaluated on the toy suite for plaintext
`[4, 2]` under Alice's generated team keys. -/
theorem C2_team_roundtrip_witness :
    teamDecrypt toySuite toyTeam c2env false = .ok ⟨[4, 2], toyTeam.myCurvePublic⟩ :=
  C2_team_roundtrip toySuite toyTeam [4, 2] c2env rfl
    (toySuite_validKem toyTeam.teamCurvePublic rfl) (toySuite_sigSound _)
    toySuite_symSound

/-- C3: the mailbox encryptor's decrypt returns a plaintext only when the
signature verifies against that decrypted plaintext under the claimed sender
signature public key; when verification fails on a message whose symmetric
decryption succeeded, decrypt raises the invalid-signature error and the
decrypted plaintext is discarded. -/
theorem C3_decrypt_requires_valid_signature (s : Suite) (keys : MailboxKeys)
    (m : MailboxMessage) (senderPub d : Bytes) :
    (mailboxDecrypt s keys m senderPub = .ok d →
      s.verify senderPub d m.signature = true) ∧
    (decryptData s m.encryptedData (s.decapsulate m.ciphertext keys.curvePrivate) = .ok d →
      s.verify senderPub d m.signature = false →
      mailboxDecrypt s keys m senderPub = .error "Decryption failed: Invalid signature") := by
  constructor
  · intro h
    unfold mailboxDecrypt at h
    cases hdd : decryptData s m.encryptedData (s.decapsulate m.ciphertext keys.curvePrivate) with
    | error e => rw [hdd] at h; cases h
    | ok t =>
      rw [hdd] at h
      simp only [bytesToText, textToBytes, ite_self] at h
      cases hv : s.verify senderPub t m.signature with
      | false => rw [hv] at h; simp at h
      | true =>
        rw [hv] at h
        simp at h
        subst h
        exact hv
  · intro hdd hv
    unfold mailboxDecrypt
    rw [hdd]
    simp only [bytesToText, textToBytes, ite_self, hv]
    simp

/-- C3 witness: on the toy suite, decrypting Alice's message to Bob succeeds
only with a verifying signature, and the same message with a broken
signature (symmetric decryption still succeeding) yields the
invalid-signature error. -/
theorem C3_decrypt_requires_valid_signature_witness :
    toySuite.verify alice.signKeys.publicKey [0] c1msg.signature = true ∧
    mailboxDecrypt toySuite (userMailboxKeys bob) c3badMsg alice.signKeys.publicKey =
      .error "Decryption failed: Invalid signature" :=
  ⟨(C3_decrypt_requires_valid_signature toySuite (userMailboxKeys bob) c1msg
      alice.signKeys.publicKey [0]).1 rfl,
   (C3_decrypt_requires_valid_signature toySuite (userMailboxKeys bob) c3badMsg
      alice.signKeys.publicKey [0]).2 rfl rfl⟩

/-- C4 (amended): provided the provider initialization awaited before the
try block succeeds, decryptSharedBlock never raises: it returns the result
object built from the try-block outcome, and every decrypt-path failure is
captured in that object with valid = false and the error message. An
initialization rejection, by contrast, propagates (see the
counterexample). -/
theorem C4_decrypt_never_throws (st : Coordinator) (b? : Option Block)
    (hinit : st.initResult = .ok ()) :
    decryptSharedBlock st b? = .ok (mkDecResult (decryptSharedBlockTry st b?)) ∧
    (∀ e, decryptSharedBlockTry st b? = .error e →
      (mkDecResult (decryptSharedBlockTry st b?)).valid = false ∧
      (mkDecResult (decryptSharedBlockTry st b?)).error = some e) := by
  constructor
  · simp [decryptSharedBlock, hinit]
  · intro e he
    simp [he, mkDecResult]

/-- C4 witness: on Bob's initialized coordinator and an undefined block the
call returns a result object carrying the captured error. -/
theorem C4_decrypt_never_throws_witness :
    decryptSharedBlock bobCoord none = .ok (mkDecResult (decryptSharedBlockTry bobCoord none)) ∧
    (mkDecResult (decryptSharedBlockTry bobCoord none)).valid = false ∧
    (mkDecResult (decryptSharedBlockTry bobCoord none)).error = some "Block is undefined" :=
  ⟨(C4_decrypt_never_throws bobCoord none rfl).1,
   (C4_decrypt_never_throws bobCoord none rfl).2 "Block is undefined" rfl⟩

/-- C4 counterexample: a coordinator whose provider initialization rejects
(the NaCl/ElGamal providers when loadCryptoModule fails) makes
decryptSharedBlock itself raise, because ensureInitialized is awaited before
the try block — refuting the claim for every Coordinator state. -/
theorem C4_init_failure_counterexample :
    decryptSharedBlock ⟨bob, toySuite, none, .error "Failed to load chainpad_crypto module"⟩
      (some c1emptyBlock) = .error "Failed to load chainpad_crypto module" :=
  rfl

/-- C5: encryptForMailbox catches each per-recipient encryption failure and
omits that recipient, never aborting the batch (the function is total and
returns the accumulated map whose keys are exactly the recipients whose
encryption succeeded, in order); in particular five distinct recipients of
which exactly one fails yield a map of exactly four entries. -/
theorem C5_partial_tolerance (s : Suite) (keys : MailboxKeys) (data : Bytes)
    (recips : List Bytes) (hnd : recips.Nodup) :
    ((encryptForMailbox s keys data recips).map Prod.fst =
      recips.filter (fun r => exceptIsOk (mailboxEncrypt s keys data true r))) ∧
    (recips.length = 5 →
      (recips.filter (fun r => !(exceptIsOk (mailboxEncrypt s keys data true r)))).length = 1 →
      (encryptForMailbox s keys data recips).length = 4) := by
  have hk := encryptForMailbox_keys s keys data recips hnd
  refine ⟨hk, fun h5 h1 => ?_⟩
  have hl : (encryptForMailbox s keys data recips).length =
      (recips.filter (fun r => exceptIsOk (mailboxEncrypt s keys data true r))).length := by
    rw [← hk, List.length_map]
  have hsplit := length_filter_split recips
    (fun r => exceptIsOk (mailboxEncrypt s keys data true r))
  simp only [] at hsplit
  omega

/-- C5 witness: the toy suite on five distinct recipients, the last with a
malformed public key: exactly four entries come back. -/
theorem C5_partial_tolerance_witness :
    ((encryptForMailbox toySuite (userMailboxKeys alice) [3] c5recips).map Prod.fst =
      c5recips.filter (fun r =>
        exceptIsOk (mailboxEncrypt toySuite (userMailboxKeys alice) [3] true r))) ∧
    (encryptForMailbox toySuite (userMailboxKeys alice) [3] c5recips).length = 4 :=
  ⟨(C5_partial_tolerance toySuite (userMailboxKeys alice) [3] c5recips (by decide)).1,
   (C5_partial_tolerance toySuite (userMailboxKeys alice) [3] c5recips (by decide)).2
     rfl rfl⟩

/-- C6 (amended): createTeamEncryptor validates all six TeamKeySet fields
and rejects incomplete key material at construction time with an error
naming the missing fields; every encryptor it does return has
can_encrypt = true and can_decrypt = true — the flags are constants and do
not reflect direction-specific sufficiency, and encrypt-only key material
fails at call time instead of yielding can_decrypt = false. -/
theorem C6_capability_flags (k : TeamKeysJs) :
    (∀ e, createTeamEncryptor k = .ok e → e.can_encrypt = true ∧ e.can_decrypt = true) ∧
    (missingTeamKeys k ≠ [] →
      createTeamEncryptor k =
        .error ("Missing required team keys: " ++
          String.intercalate ", " (missingTeamKeys k))) := by
  constructor
  · intro enc henc
    unfold createTeamEncryptor at henc
    cases hv : validateTeamKeys k with
    | error e2 => rw [hv] at henc; cases henc
    | ok ks =>
      rw [hv] at henc
      injection henc with h2
      subst h2
      exact ⟨rfl, rfl⟩
  · intro hmiss
    unfold createTeamEncryptor validateTeamKeys
    obtain ⟨a, b, c, d, e, f⟩ := k
    cases a <;> cases b <;> cases c <;> cases d <;> cases e <;> cases f <;>
      simp_all [missingTeamKeys]

/-- C6 witness: the complete team key set yields an encryptor with both
flags true; the encrypt-only key material is rejected with the error naming
the three absent fields. -/
theorem C6_capability_flags_witness :
    (c6goodEnc.can_encrypt = true ∧ c6goodEnc.can_decrypt = true) ∧
    createTeamEncryptor c6keys =
      .error "Missing required team keys: teamCurvePrivate, teamEdPublic, myCurvePrivate" :=
  ⟨(C6_capability_flags toyTeam.toJs).1 c6goodEnc rfl,
   (C6_capability_flags c6keys).2 (by decide)⟩

/-- C6 counterexample: encrypt-only team key material (team KEM public key,
own KEM public key, team signature secret key present; the decryption keys
absent) does not produce an encryptor with can_decrypt = false — the
construction fails outright, refuting the claim's call-time clause. -/
theorem C6_encrypt_only_counterexample :
    createTeamEncryptor c6keys =
      .error "Missing required team keys: teamCurvePrivate, teamEdPublic, myCurvePrivate" :=
  rfl

/-- C7: teamDecrypt performs both decapsulations with the team KEM secret
key and never reads the envelope's ephemeralPublicKey: with signature
validation skipped, replacing ephemeralPublicKey does not change the result;
the result depends on the key set only through teamCurvePrivate and
teamEdPublic; and with validation on, the call is exactly the signature
check over the serialized outer bundle followed by the validation-skipped
decryption. -/
theorem C7_ephemeral_key_unused (s : Suite) (k k2 : TeamKeySet)
    (env : TeamEnvelope) (epk : Bytes) (skip : Bool)
    (h1 : k2.teamCurvePrivate = k.teamCurvePrivate)
    (h2 : k2.teamEdPublic = k.teamEdPublic) :
    teamDecrypt s k
      ⟨⟨env.outerBundle.encryptedData, env.outerBundle.ciphertext, epk⟩, env.signature⟩ true =
      teamDecrypt s k env true ∧
    teamDecrypt s k2 env skip = teamDecrypt s k env skip ∧
    teamDecrypt s k env false =
      (if s.verify k.teamEdPublic (textToBytes (serializeOuter env.outerBundle))
          (decodeBase64 env.signature) = true then
        teamDecrypt s k env true
      else .error "Team decryption failed: Invalid team signature") := by
  refine ⟨?_, ?_, ?_⟩
  · simp [teamDecrypt]
  · simp [teamDecrypt, h1, h2]
  · cases hv : s.verify k.teamEdPublic (textToBytes (serializeOuter env.outerBundle))
        (decodeBase64 env.signature) <;>
      simp [teamDecrypt, hv, Except.mapError]

/-- C7 witness: the three properties evaluated on the toy suite, the
concrete envelope `c2env` and a replaced ephemeral key `[9, 9]`. -/
theorem C7_ephemeral_key_unused_witness :
    teamDecrypt toySuite toyTeam
      ⟨⟨c2env.outerBundle.encryptedData, c2env.outerBundle.ciphertext, [9, 9]⟩,
        c2env.signature⟩ true =
      teamDecrypt toySuite toyTeam c2env true ∧
    teamDecrypt toySuite toyTeam c2env true = teamDecrypt toySuite toyTeam c2env true ∧
    teamDecrypt toySuite toyTeam c2env false =
      (if toySuite.verify toyTeam.teamEdPublic
          (textToBytes (serializeOuter c2env.outerBundle))
          (decodeBase64 c2env.signature) = true then
        teamDecrypt toySuite toyTeam c2env true
      else .error "Team decryption failed: Invalid team signature") :=
  C7_ephemeral_key_unused toySuite toyTeam toyTeam c2env [9, 9] true rfl rfl

/-- C8: under any interleaving of callers and the completion event, the
memoized initializer starts the underlying suite initialization at most
once — exactly once as soon as any caller entered — every caller that
entered is either still awaiting the in-flight promise or has observed the
successful result, once the in-flight promise has resolved every entered
caller has observed success, and a caller entering after completion returns
immediately without touching the promise or the underlying initialization. -/
theorem C8_init_memoized (tr : List InitEvent) :
    (initRun tr).provInits ≤ 1 ∧
    ((∃ c, InitEvent.enter c ∈ tr) → (initRun tr).provInits = 1) ∧
    (∀ c, InitEvent.enter c ∈ tr →
      c ∈ (initRun tr).waiters ∨ c ∈ (initRun tr).done) ∧
    ((initRun tr).waiters = [] → ∀ c, InitEvent.enter c ∈ tr → c ∈ (initRun tr).done) ∧
    (∀ s c, s.ready = true → initStep s (InitEvent.enter c) = { s with done := c :: s.done }) := by
  have hstart : InitInv initStart := by constructor <;> simp [initStart, InitInv]
  have hinv : InitInv (initRun tr) := initRun_inv tr initStart hstart
  refine ⟨?_, ?_, ?_, ?_, ?_⟩
  · rw [hinv.1]
    cases (initRun tr).hasPromise <;> simp
  · intro h
    have hp : (initRun tr).hasPromise = true := foldl_enter_hasPromise tr initStart hstart h
    rw [hinv.1, hp]
    rfl
  · intro c hc
    exact foldl_member tr initStart c (Or.inl hc)
  · intro hw c hc
    rcases foldl_member tr initStart c (Or.inl hc) with h | h
    · rw [show (tr.foldl initStep initStart) = initRun tr from rfl, hw] at h
      cases h
    · exact h
  · intro s c hr
    simp [initStep, hr]

/-- C8 witness: two concurrent callers, the completion, then a late caller:
the underlying initialization ran exactly once and all three callers
observed success. -/
theorem C8_init_memoized_witness :
    (initRun c8trace).provInits = 1 ∧
    0 ∈ (initRun c8trace).done ∧ 1 ∈ (initRun c8trace).done ∧ 2 ∈ (initRun c8trace).done :=
  ⟨(C8_init_memoized c8trace).2.1 ⟨0, by decide⟩,
   (C8_init_memoized c8trace).2.2.2.1 (by decide) 0 (by decide),
   (C8_init_memoized c8trace).2.2.2.1 (by decide) 1 (by decide),
   (C8_init_memoized c8trace).2.2.2.1 (by decide) 2 (by decide)⟩

/-- C9: generateTeamKeys produces no fresh key material — the returned
TeamKeySet consists exactly of the Participant's own KEM and signature key
pairs — and consequently an envelope produced under it decrypts with the
generating Participant's personal KEM secret key, the recorded author being
that Participant's KEM public key. -/
theorem C9_team_keys_are_personal_keys (s : Suite) (u : Participant) (P : Bytes)
    (env : TeamEnvelope)
    (henv : teamEncrypt s (generateTeamKeys u) P = .ok env)
    (hkem : ValidKemPair s u.kemKeys.publicKey u.kemKeys.secretKey)
    (hsig : SigSound s u.signKeys.publicKey u.signKeys.secretKey)
    (hsym : SymSound s) :
    generateTeamKeys u =
      ⟨u.kemKeys.publicKey, u.kemKeys.secretKey, u.signKeys.publicKey,
        u.signKeys.secretKey, u.kemKeys.publicKey, u.kemKeys.secretKey⟩ ∧
    (generateTeamKeys u).teamCurvePrivate = u.kemKeys.secretKey ∧
    teamDecrypt s (generateTeamKeys u) env false = .ok ⟨P, u.kemKeys.publicKey⟩ := by
  refine ⟨rfl, rfl, ?_⟩
  obtain ⟨env2, henv2, hd⟩ := team_roundtrip s (generateTeamKeys u) P hkem hsig hsym
  rw [henv] at henv2
  injection henv2 with he
  subst he
  exact hd

/-- C9 witness: Alice's generated team keys are her own key pairs, and the
concrete envelope decrypts with her personal KEM secret key. -/
theorem C9_team_keys_are_personal_keys_witness :
    generateTeamKeys alice =
      ⟨alice.kemKeys.publicKey, alice.kemKeys.secretKey, alice.signKeys.publicKey,
        alice.signKeys.secretKey, alice.kemKeys.publicKey, alice.kemKeys.secretKey⟩ ∧
    (generateTeamKeys alice).teamCurvePrivate = alice.kemKeys.secretKey ∧
    teamDecrypt toySuite (generateTeamKeys alice) c2env false =
      .ok ⟨[4, 2], alice.kemKeys.publicKey⟩ :=
  C9_team_keys_are_personal_keys toySuite alice [4, 2] c2env rfl
    (toySuite_validKem alice.kemKeys.publicKey rfl)
    (toySuite_sigSound alice.signKeys.publicKey) toySuite_symSound

/-- C10: whenever decryptSharedBlock returns a result object, its valid,
signatureValid and decryptionValid fields are equal — all three come from
the same expression, so a signature failure can never be reported separately
from a decryption failure. -/
theorem C10_flags_equal (st : Coordinator) (b? : Option Block) (r : DecResult)
    (h : decryptSharedBlock st b? = .ok r) :
    r.valid = r.signatureValid ∧ r.signatureValid = r.decryptionValid := by
  unfold decryptSharedBlock at h
  cases hi : st.initResult with
  | error e => rw [hi] at h; cases h
  | ok u =>
    rw [hi] at h
    injection h with h2
    subst h2
    cases decryptSharedBlockTry st b? <;> simp [mkDecResult]

/-- C10 witness: the result object for an undefined block on Bob's
coordinator has its three validity flags pairwise equal. -/
theorem C10_flags_equal_witness :
    (DecResult.mk false false false none (some "Block is undefined")).valid =
      (DecResult.mk false false false none (some "Block is undefined")).signatureValid ∧
    (DecResult.mk false false false none (some "Block is undefined")).signatureValid =
      (DecResult.mk false false false none (some "Block is undefined")).decryptionValid :=
  C10_flags_equal bobCoord none ⟨false, false, false, none, some "Block is undefined"⟩ rfl

